import Mathlib

/-!
Verification of the solar-position module `energy_bal_Init.py`.

The module's core arithmetic is shallowly embedded below.  Pandas
timezone-aware timestamps are modelled by `Timestamp`: `utc` holds the
int64 nanosecond value stored by pandas (nanoseconds since the epoch,
UTC), and `offset` the fixed UTC offset of the attached timezone in
nanoseconds (east positive).  Under this model:

* `times.view(np.int64)`                  is `t.utc`;
* `times.tz_localize(None).view(np.int64)` is `wallNs t = t.utc + t.offset`
  (the local wall-clock reading as a naive value);
* `times.normalize().view(np.int64)`      is `normalizeUtcNs t`
  (local midnight of the local day, expressed back in UTC nanoseconds).

Floating-point numbers are idealised as real numbers, NumPy NaN
propagation through `np.arccos` outside `[-1, 1]` as `Option`.
-/

structure Timestamp where
  utc : ℤ
  offset : ℤ
deriving DecidableEq, Repr

def nsPerDay : ℤ := 86400000000000

noncomputable def NS_PER_HR : ℝ := 1e9 * 3600

/-- `times.tz_localize(None).view(np.int64)`: the wall-clock nanosecond value. -/
def wallNs (t : Timestamp) : ℤ := t.utc + t.offset

/-- Nanosecond value of the most recent local midnight, on the wall clock. -/
def midnightWallNs (t : Timestamp) : ℤ := wallNs t - wallNs t % nsPerDay

/-- `times.normalize().view(np.int64)`: local midnight expressed in UTC nanoseconds. -/
def normalizeUtcNs (t : Timestamp) : ℤ := midnightWallNs t - t.offset

/-- `hour_angle(times, longitude, equation_of_time)` from the source:
`15. * (hrs_minus_tzs - 12.) + longitude + equation_of_time / 4.` where
`hrs_minus_tzs = 1 / NS_PER_HR * (2 * times - times.normalize() - naive_times)`
on the int64 views. -/
noncomputable def hour_angle (times : Timestamp) (longitude equation_of_time : ℝ) : ℝ :=
  let hrs_minus_tzs : ℝ :=
    1 / NS_PER_HR * ((2 * times.utc - normalizeUtcNs times - wallNs times : ℤ) : ℝ)
  15 * (hrs_minus_tzs - 12) + longitude + equation_of_time / 4

/-- `_hour_angle_to_hours(times, hourangle, longitude, equation_of_time)` from the
source: `tzs = 1 / NS_PER_HR * (naive_times - times)` on the int64 views, then
`(hourangle - longitude - equation_of_time / 4.) / 15. + 12. + tzs`. -/
noncomputable def hour_angle_to_hours (times : Timestamp)
    (hourangle longitude equation_of_time : ℝ) : ℝ :=
  let tzs : ℝ := 1 / NS_PER_HR * ((wallNs times - times.utc : ℤ) : ℝ)
  (hourangle - longitude - equation_of_time / 4) / 15 + 12 + tzs

/-- `_times_to_hours_after_local_midnight(times)` from the source: strip the
timezone, then `1 / NS_PER_HR * (times - times.normalize())` on the int64 views. -/
noncomputable def times_to_hours_after_local_midnight (times : Timestamp) : ℝ :=
  1 / NS_PER_HR * ((wallNs times - midnightWallNs times : ℤ) : ℝ)

/-- Local wall-clock hours elapsed since the most recent local midnight
(spec reading of "local-clock hours since local midnight"). -/
noncomputable def hoursSinceLocalMidnight (t : Timestamp) : ℝ :=
  ((wallNs t % nsPerDay : ℤ) : ℝ) / NS_PER_HR

/-- The UTC offset carried by the timestamp, in hours. -/
noncomputable def utcOffsetHours (t : Timestamp) : ℝ :=
  (t.offset : ℝ) / NS_PER_HR

theorem NS_PER_HR_ne_zero : NS_PER_HR ≠ 0 := by norm_num [NS_PER_HR]

/-- Claim C1: the hour-angle converters round-trip: converting a timestamp to an
hour angle and back yields exactly the hours elapsed since that day's local
midnight, for every timestamp, longitude and equation-of-time value. -/
theorem hour_angle_round_trip (t : Timestamp) (longitude equation_of_time : ℝ) :
    hour_angle_to_hours t (hour_angle t longitude equation_of_time)
        longitude equation_of_time
      = times_to_hours_after_local_midnight t := by
  unfold hour_angle_to_hours hour_angle times_to_hours_after_local_midnight
    normalizeUtcNs midnightWallNs wallNs
  have h15 : (15 : ℝ) ≠ 0 := by norm_num
  push_cast
  field_simp
  ring

/-- Claim C2 counterexample: two timestamps denoting the same physical instant
(23:00 UTC) but localized to UTC and to UTC+02 produce different hour angles
(165 versus -195 degrees); the values agree only modulo 360. -/
theorem hour_angle_tz_counterexample :
    (Timestamp.mk 82800000000000 0).utc
        = (Timestamp.mk 82800000000000 7200000000000).utc ∧
    hour_angle ⟨82800000000000, 0⟩ 0 0
        ≠ hour_angle ⟨82800000000000, 7200000000000⟩ 0 0 := by
  refine ⟨rfl, ?_⟩
  unfold hour_angle normalizeUtcNs midnightWallNs wallNs
  norm_num [NS_PER_HR, nsPerDay]

/-- Claim C2 (amended): `hour_angle` returns elementwise
`15 * (local-clock hours since local midnight - UTC offset in hours - 12)
 + longitude + eot / 4`, and two representations of the same physical instant
localized to different timezones yield hour angles that agree modulo 360
degrees (they can differ by a nonzero multiple of 360). -/
theorem hour_angle_formula_and_instant (t t2 : Timestamp)
    (longitude equation_of_time : ℝ) (h : t.utc = t2.utc) :
    hour_angle t longitude equation_of_time
        = 15 * (hoursSinceLocalMidnight t - utcOffsetHours t - 12)
            + longitude + equation_of_time / 4 ∧
    ∃ k : ℤ, hour_angle t longitude equation_of_time
        - hour_angle t2 longitude equation_of_time = 360 * k := by
  constructor
  · unfold hour_angle hoursSinceLocalMidnight utcOffsetHours
      normalizeUtcNs midnightWallNs wallNs
    push_cast
    field_simp
    ring
  · have hdvd : nsPerDay ∣
        (wallNs t % nsPerDay - t.offset) - (wallNs t2 % nsPerDay - t2.offset) := by
      have h1 : (wallNs t % nsPerDay - t.offset) % nsPerDay = t.utc % nsPerDay := by
        conv_lhs => rw [Int.sub_emod, Int.emod_emod_of_dvd _ dvd_rfl, ← Int.sub_emod]
        have : wallNs t - t.offset = t.utc := by unfold wallNs; ring
        rw [this]
      have h2 : (wallNs t2 % nsPerDay - t2.offset) % nsPerDay = t2.utc % nsPerDay := by
        conv_lhs => rw [Int.sub_emod, Int.emod_emod_of_dvd _ dvd_rfl, ← Int.sub_emod]
        have : wallNs t2 - t2.offset = t2.utc := by unfold wallNs; ring
        rw [this]
      have heq : (wallNs t % nsPerDay - t.offset) % nsPerDay
          = (wallNs t2 % nsPerDay - t2.offset) % nsPerDay := by
        rw [h1, h2, h]
      exact Int.dvd_of_emod_eq_zero
        (Int.emod_eq_emod_iff_emod_sub_eq_zero.mp heq)
    obtain ⟨k, hk⟩ := hdvd
    refine ⟨k, ?_⟩
    unfold hour_angle normalizeUtcNs midnightWallNs wallNs
    have hcast : ((t.utc + t.offset) % nsPerDay - t.offset : ℤ)
        - ((t2.utc + t2.offset) % nsPerDay - t2.offset : ℤ) = nsPerDay * k := by
      have := hk
      unfold wallNs at this
      linarith [this]
    have hR : (((t.utc + t.offset) % nsPerDay - t.offset : ℤ) : ℝ)
        - (((t2.utc + t2.offset) % nsPerDay - t2.offset : ℤ) : ℝ)
        = (nsPerDay : ℝ) * (k : ℝ) := by
      have h3 := congrArg (fun z : ℤ => (z : ℝ)) hcast
      push_cast at h3
      push_cast
      linarith [h3]
    have hD : ((nsPerDay : ℤ) : ℝ) = 86400000000000 := by norm_num [nsPerDay]
    have expand1 : (2 * t.utc - (t.utc + t.offset - (t.utc + t.offset) % nsPerDay
        - t.offset) - (t.utc + t.offset) : ℤ)
        = (t.utc + t.offset) % nsPerDay - t.offset := by ring
    have expand2 : (2 * t2.utc - (t2.utc + t2.offset - (t2.utc + t2.offset) % nsPerDay
        - t2.offset) - (t2.utc + t2.offset) : ℤ)
        = (t2.utc + t2.offset) % nsPerDay - t2.offset := by ring
    rw [expand1, expand2]
    have : (15 : ℝ) * (1 / NS_PER_HR *
          (((t.utc + t.offset) % nsPerDay - t.offset : ℤ) : ℝ) - 12)
          + longitude + equation_of_time / 4
        - (15 * (1 / NS_PER_HR *
          (((t2.utc + t2.offset) % nsPerDay - t2.offset : ℤ) : ℝ) - 12)
          + longitude + equation_of_time / 4)
        = 15 / NS_PER_HR *
          ((((t.utc + t.offset) % nsPerDay - t.offset : ℤ) : ℝ)
            - (((t2.utc + t2.offset) % nsPerDay - t2.offset : ℤ) : ℝ)) := by
      ring
    rw [this, hR, hD]
    norm_num [NS_PER_HR]
    ring

/-- Witness for `hour_angle_formula_and_instant` at the concrete instant 0
localized to UTC and to UTC+01. -/
theorem hour_angle_formula_and_instant_witness :
    (Timestamp.mk 0 0).utc = (Timestamp.mk 0 3600000000000).utc ∧
    (hour_angle ⟨0, 0⟩ 0 0
        = 15 * (hoursSinceLocalMidnight ⟨0, 0⟩ - utcOffsetHours ⟨0, 0⟩ - 12)
            + 0 + 0 / 4 ∧
     ∃ k : ℤ, hour_angle ⟨0, 0⟩ 0 0 - hour_angle ⟨0, 3600000000000⟩ 0 0
        = 360 * k) :=
  ⟨rfl, hour_angle_formula_and_instant ⟨0, 0⟩ ⟨0, 3600000000000⟩ 0 0 rfl⟩

/-- `_calculate_simple_day_angle(dayofyear, offset)` from the source:
`(2. * np.pi / 365.) * (dayofyear - offset)`. -/
noncomputable def calculate_simple_day_angle (dayofyear offset : ℝ) : ℝ :=
  2 * Real.pi / 365 * (dayofyear - offset)

/-- `equation_of_time_pvcdrom(dayofyear)` from the source:
`bday = _calculate_simple_day_angle(dayofyear) - (2.0 * np.pi / 365.0) * 80.0`
then `9.87 * sin(2 * bday) - 7.53 * cos(bday) - 1.5 * sin(bday)`. -/
noncomputable def equation_of_time_pvcdrom (dayofyear : ℝ) : ℝ :=
  let bday := calculate_simple_day_angle dayofyear 1 - 2 * Real.pi / 365 * 80
  9.87 * Real.sin (2 * bday) - 7.53 * Real.cos bday - 1.5 * Real.sin bday

/-- The 3-term equation of time exactly as the spec words it: the day angle
referenced to day 81, `b = (2 pi / 365) * (dayofyear - 81)`, plugged into
`9.87 sin(2 b) - 7.53 cos(b) - 1.5 sin(b)`. -/
noncomputable def eot_pvcdrom_day81 (dayofyear : ℝ) : ℝ :=
  let b := 2 * Real.pi / 365 * (dayofyear - 81)
  9.87 * Real.sin (2 * b) - 7.53 * Real.cos b - 1.5 * Real.sin b

/-- Claim C9: for every dayOfYear the 3-term equation-of-time approximation in
the code equals `9.87 sin(2b) - 7.53 cos(b) - 1.5 sin(b)` minutes with
`b = (2 pi / 365) * (dayOfYear - 81)`. -/
theorem equation_of_time_pvcdrom_day81 (dayofyear : ℝ) :
    equation_of_time_pvcdrom dayofyear = eot_pvcdrom_day81 dayofyear := by
  have hb : calculate_simple_day_angle dayofyear 1 - 2 * Real.pi / 365 * 80
      = 2 * Real.pi / 365 * (dayofyear - 81) := by
    unfold calculate_simple_day_angle
    ring
  simp only [equation_of_time_pvcdrom, eot_pvcdrom_day81, hb]

/-- The chained substitution and clamping of the azimuth cosine ratio from
`solar_azimuth_analytical`: `numer / denom` where
`numer = cos(zenith) sin(latitude) - sin(declination)` and
`denom = sin(zenith) cos(latitude)`, with the limit value `1.0` substituted
when `np.isclose(denom, 0.0, rtol=0.0, atol=1e-8)`, and the ratio clamped to
`1.0` and `-1.0` when within absolute tolerance `1e-8` of those bounds. -/
noncomputable def cos_azi (latitude declination zenith : ℝ) : ℝ :=
  let numer := Real.cos zenith * Real.sin latitude - Real.sin declination
  let denom := Real.sin zenith * Real.cos latitude
  let c0 := numer / denom
  let c1 := if |denom - 0| ≤ 1e-8 then 1 else c0
  let c2 := if |c1 - 1| ≤ 1e-8 then 1 else c1
  if |c2 - -1| ≤ 1e-8 then -1 else c2

/-- `np.arccos` with its NaN result modelled as `none` outside `[-1, 1]`. -/
noncomputable def arccosNaN (x : ℝ) : Option ℝ :=
  if -1 ≤ x ∧ x ≤ 1 then some (Real.arccos x) else none

/-- `solar_azimuth_analytical(latitude, hourangle, declination, zenith)` from
the source: `np.sign(hourangle) * np.arccos(cos_azi) + np.pi`; a clamped ratio
still outside `[-1, 1]` makes `np.arccos` return NaN, which propagates through
the whole expression (modelled as `none`). -/
noncomputable def solar_azimuth_analytical
    (latitude hourangle declination zenith : ℝ) : Option ℝ :=
  Option.map (fun a => Real.sign hourangle * a + Real.pi)
    (arccosNaN (cos_azi latitude declination zenith))

/-- `solar_zenith_analytical(latitude, hourangle, declination)` from the source:
`arccos(cos(declination) cos(latitude) cos(hourangle) + sin(declination) sin(latitude))`. -/
noncomputable def solar_zenith_analytical
    (latitude hourangle declination : ℝ) : ℝ :=
  Real.arccos (Real.cos declination * Real.cos latitude * Real.cos hourangle +
    Real.sin declination * Real.sin latitude)

/-- At the poles the denominator vanishes and the substituted ratio is 1. -/
theorem cos_azi_pole (latitude declination zenith : ℝ)
    (h : Real.cos latitude = 0) : cos_azi latitude declination zenith = 1 := by
  simp only [cos_azi]
  rw [h, mul_zero]
  rw [if_pos (by norm_num : |(0 : ℝ) - 0| ≤ 1e-8)]
  rw [if_pos (by norm_num : |(1 : ℝ) - 1| ≤ 1e-8)]
  rw [if_neg (by norm_num : ¬ |(1 : ℝ) - -1| ≤ 1e-8)]

/-- At latitude 0, declination 2/5, zenith 2/5 the raw ratio is exactly -1 and
survives the clamping chain as -1. -/
theorem cos_azi_clamp_example : cos_azi 0 (2/5) (2/5) = -1 := by
  have hs : (0.384 : ℝ) < Real.sin (2/5) := by
    have h := Real.sin_gt_sub_cube (by norm_num : (0:ℝ) < 2/5) (by norm_num : (2:ℝ)/5 ≤ 1)
    norm_num at h
    linarith
  simp only [cos_azi, Real.sin_zero, Real.cos_zero, mul_one, mul_zero, zero_sub]
  have hsne : Real.sin (2/5) ≠ 0 := by linarith
  have hratio : -Real.sin (2/5) / Real.sin (2/5) = -1 := by
    rw [neg_div, div_self hsne]
  have hcond1 : ¬ |Real.sin (2/5) - 0| ≤ 1e-8 := by
    rw [sub_zero, abs_of_pos (by linarith)]
    norm_num
    linarith
  rw [if_neg hcond1, hratio]
  have hcond2 : ¬ |(-1 : ℝ) - 1| ≤ 1e-8 := by norm_num
  rw [if_neg hcond2]
  have hcond3 : |(-1 : ℝ) - -1| ≤ 1e-8 := by norm_num
  rw [if_pos hcond3]

/-- At latitude 0, declination -pi/2, zenith 1/10 the raw ratio is
`1 / sin(1/10) > 10`; no guard fires and it stays outside `[-1, 1]`. -/
theorem cos_azi_out_of_range_example :
    cos_azi 0 (-(Real.pi / 2)) (1/10) = 1 / Real.sin (1/10) ∧
    1 < cos_azi 0 (-(Real.pi / 2)) (1/10) := by
  have hs1 := Real.sin_gt_sub_cube (by norm_num : (0:ℝ) < 1/10)
    (by norm_num : (1:ℝ)/10 ≤ 1)
  have hcube : (1:ℝ)/10 - (1/10) ^ 3 / 4 = 399/4000 := by norm_num
  rw [hcube] at hs1
  have hs2 : Real.sin (1/10) < 1/10 := Real.sin_lt (by norm_num)
  have hspos : 0 < Real.sin (1/10) := by linarith
  have hbig : (10 : ℝ) < 1 / Real.sin (1/10) := by
    rw [lt_div_iff₀ hspos]
    linarith
  have hcond1 : ¬ |Real.sin (1/10) - 0| ≤ 1e-8 := by
    rw [sub_zero, abs_of_pos hspos, not_le]
    linarith
  have hcond2 : ¬ |1 / Real.sin (1/10) - 1| ≤ 1e-8 := by
    rw [abs_of_pos (by linarith : (0:ℝ) < 1 / Real.sin (1/10) - 1), not_le]
    linarith
  have hcond3 : ¬ |1 / Real.sin (1/10) - -1| ≤ 1e-8 := by
    rw [abs_of_pos (by linarith : (0:ℝ) < 1 / Real.sin (1/10) - -1), not_le]
    linarith
  have hc : cos_azi 0 (-(Real.pi / 2)) (1/10) = 1 / Real.sin (1/10) := by
    simp only [cos_azi, Real.sin_zero, Real.sin_neg, Real.sin_pi_div_two,
      Real.cos_zero, mul_zero, mul_one, zero_sub, neg_neg]
    rw [if_neg hcond1, if_neg hcond2, if_neg hcond3]
  refine ⟨hc, ?_⟩
  rw [hc]
  linarith

/-- Claim C10 counterexample: at latitude 0, declination -pi/2, zenith 1/10 the
clamped cosine ratio stays outside [-1, 1], `np.arccos` yields NaN, and the
azimuth at hourangle exactly 0 is NaN (none), not pi: `0 * nan + pi = nan`. -/
theorem solar_azimuth_analytical_noon_counterexample :
    solar_azimuth_analytical 0 0 (-(Real.pi / 2)) (1/10) = none ∧
    solar_azimuth_analytical 0 0 (-(Real.pi / 2)) (1/10) ≠ some Real.pi := by
  obtain ⟨-, hgt⟩ := cos_azi_out_of_range_example
  have hdom : ¬ (-1 ≤ cos_azi 0 (-(Real.pi / 2)) (1/10) ∧
      cos_azi 0 (-(Real.pi / 2)) (1/10) ≤ 1) := by
    rintro ⟨-, hb⟩
    linarith
  have hnone : solar_azimuth_analytical 0 0 (-(Real.pi / 2)) (1/10) = none := by
    simp only [solar_azimuth_analytical, arccosNaN, if_neg hdom, Option.map_none']
  refine ⟨hnone, ?_⟩
  rw [hnone]
  exact fun hcc => Option.noConfusion hcc

/-- Claim C10 (amended): at hour angle exactly zero the azimuth is exactly pi
whenever the clamped cosine ratio lies in [-1, 1], because `np.sign(0) = 0`
multiplies the arccos value away; a clamped ratio outside [-1, 1] instead makes
the result NaN (see the counterexample). -/
theorem solar_azimuth_analytical_noon (latitude declination zenith : ℝ)
    (h : -1 ≤ cos_azi latitude declination zenith ∧
      cos_azi latitude declination zenith ≤ 1) :
    solar_azimuth_analytical latitude 0 declination zenith = some Real.pi := by
  simp only [solar_azimuth_analytical, arccosNaN, if_pos h, Option.map_some']
  rw [Real.sign_zero, zero_mul, zero_add]

/-- Witness for `solar_azimuth_analytical_noon` at the north-pole input, whose
substituted ratio is 1. -/
theorem solar_azimuth_analytical_noon_witness :
    (-1 ≤ cos_azi (Real.pi / 2) 0 1 ∧ cos_azi (Real.pi / 2) 0 1 ≤ 1) ∧
    solar_azimuth_analytical (Real.pi / 2) 0 0 1 = some Real.pi := by
  have hc : cos_azi (Real.pi / 2) 0 1 = 1 :=
    cos_azi_pole (Real.pi / 2) 0 1 Real.cos_pi_div_two
  have hin : -1 ≤ cos_azi (Real.pi / 2) 0 1 ∧ cos_azi (Real.pi / 2) 0 1 ≤ 1 := by
    rw [hc]
    norm_num
  exact ⟨hin, solar_azimuth_analytical_noon (Real.pi / 2) 0 1 hin⟩

/-- Claim C5 counterexample: at latitude 0, hourangle 1, declination 2/5 and
zenith 2/5 the clamped ratio is exactly -1 and the returned azimuth is exactly
2 pi, which is outside the claimed half-open range [0, 2 pi). -/
theorem solar_azimuth_analytical_range_counterexample :
    solar_azimuth_analytical 0 1 (2/5) (2/5) = some (2 * Real.pi) ∧
    (2 * Real.pi) ∉ Set.Ico (0 : ℝ) (2 * Real.pi) := by
  have hc := cos_azi_clamp_example
  have hdom : -1 ≤ cos_azi 0 (2/5) (2/5) ∧ cos_azi 0 (2/5) (2/5) ≤ 1 := by
    rw [hc]
    norm_num
  constructor
  · simp only [solar_azimuth_analytical, arccosNaN, if_pos hdom, Option.map_some']
    rw [hc, Real.arccos_neg_one, Real.sign_of_pos (by norm_num : (0:ℝ) < 1)]
    rw [show (1 : ℝ) * Real.pi + Real.pi = 2 * Real.pi by ring]
  · intro hmem
    rw [Set.mem_Ico] at hmem
    exact lt_irrefl _ hmem.2

/-- Claim C5 (amended): every azimuth value the function actually returns lies
in the closed interval [0, 2 pi] (the endpoint 2 pi is attained, e.g. when
hourangle is positive and the clamped ratio is -1; a clamped ratio outside
[-1, 1] yields NaN instead of a value), and at the poles (`cos(latitude) = 0`)
the denominator guard substitutes the ratio 1 and the function returns exactly
pi without raising. -/
theorem solar_azimuth_analytical_range_and_pole
    (latitude hourangle declination zenith : ℝ) :
    (∀ a : ℝ, solar_azimuth_analytical latitude hourangle declination zenith
        = some a → a ∈ Set.Icc 0 (2 * Real.pi)) ∧
    (Real.cos latitude = 0 →
      solar_azimuth_analytical latitude hourangle declination zenith
        = some Real.pi) := by
  constructor
  · intro a ha
    by_cases hdom : -1 ≤ cos_azi latitude declination zenith ∧
        cos_azi latitude declination zenith ≤ 1
    · simp only [solar_azimuth_analytical, arccosNaN, if_pos hdom,
        Option.map_some', Option.some_inj] at ha
      have ha1 : 0 ≤ Real.arccos (cos_azi latitude declination zenith) :=
        Real.arccos_nonneg _
      have ha2 : Real.arccos (cos_azi latitude declination zenith) ≤ Real.pi :=
        Real.arccos_le_pi _
      rw [← ha]
      rcases lt_trichotomy hourangle 0 with hha | hha | hha
      · rw [Real.sign_of_neg hha]
        constructor <;> nlinarith [Real.pi_pos]
      · subst hha
        rw [Real.sign_zero, zero_mul, zero_add]
        constructor <;> nlinarith [Real.pi_pos]
      · rw [Real.sign_of_pos hha]
        constructor <;> nlinarith [Real.pi_pos]
    · simp only [solar_azimuth_analytical, arccosNaN, if_neg hdom,
        Option.map_none'] at ha
      exact Option.noConfusion ha
  · intro hpole
    have hc : cos_azi latitude declination zenith = 1 :=
      cos_azi_pole latitude declination zenith hpole
    have hdom : -1 ≤ cos_azi latitude declination zenith ∧
        cos_azi latitude declination zenith ≤ 1 := by
      rw [hc]
      norm_num
    simp only [solar_azimuth_analytical, arccosNaN, if_pos hdom, Option.map_some']
    rw [hc, Real.arccos_one, mul_zero, zero_add]

/-- Witness for `solar_azimuth_analytical_range_and_pole` at the north pole
(latitude pi/2, where the cosine vanishes). -/
theorem solar_azimuth_analytical_range_and_pole_witness :
    Real.cos (Real.pi / 2) = 0 ∧
    solar_azimuth_analytical (Real.pi / 2) 1 0 1 = some Real.pi ∧
    Real.pi ∈ Set.Icc 0 (2 * Real.pi) := by
  have hsome := (solar_azimuth_analytical_range_and_pole (Real.pi / 2) 1 0 1).2
    Real.cos_pi_div_two
  exact ⟨Real.cos_pi_div_two, hsome,
    (solar_azimuth_analytical_range_and_pole (Real.pi / 2) 1 0 1).1 Real.pi hsome⟩

/-- Claim C8: at hour angle zero the analytical zenith collapses to
`|latitude - declination|` for latitudes and declinations within the non-polar
band `[-pi/2, pi/2]`. -/
theorem solar_zenith_analytical_noon (latitude declination : ℝ)
    (hlat : |latitude| ≤ Real.pi / 2) (hdec : |declination| ≤ Real.pi / 2) :
    solar_zenith_analytical latitude 0 declination = |latitude - declination| := by
  unfold solar_zenith_analytical
  rw [Real.cos_zero, mul_one]
  have hsum : Real.cos declination * Real.cos latitude +
      Real.sin declination * Real.sin latitude
      = Real.cos (declination - latitude) := (Real.cos_sub declination latitude).symm
  rw [hsum]
  have habs : Real.cos (declination - latitude) = Real.cos |declination - latitude| :=
    (Real.cos_abs _).symm
  rw [habs]
  have hle : |declination - latitude| ≤ Real.pi := by
    calc |declination - latitude| ≤ |declination| + |latitude| := abs_sub _ _
      _ ≤ Real.pi / 2 + Real.pi / 2 := add_le_add hdec hlat
      _ = Real.pi := by ring
  rw [Real.arccos_cos (abs_nonneg _) hle]
  rw [abs_sub_comm]

/-- Witness for `solar_zenith_analytical_noon` at latitude pi/4 and
declination 0. -/
theorem solar_zenith_analytical_noon_witness :
    |Real.pi / 4| ≤ Real.pi / 2 ∧ |(0 : ℝ)| ≤ Real.pi / 2 ∧
    solar_zenith_analytical (Real.pi / 4) 0 0 = |Real.pi / 4 - 0| := by
  have h1 : |Real.pi / 4| ≤ Real.pi / 2 := by
    rw [abs_of_nonneg (by positivity)]
    linarith [Real.pi_pos]
  have h2 : |(0 : ℝ)| ≤ Real.pi / 2 := by
    rw [abs_zero]
    positivity
  exact ⟨h1, h2, solar_zenith_analytical_noon (Real.pi / 4) 0 h1 h2⟩

/-- The sequential masked assignments building the `Refract` series inside
`ephemeris` (before the temperature/pressure scaling): `Refract` starts at 0,
then the three range masks overwrite it in source order. -/
noncomputable def refract_masks (elevation : ℝ) : ℝ :=
  let tanEl := Real.tan (elevation * (Real.pi / 180))
  let r0 : ℝ := 0
  let r1 := if 5 < elevation ∧ elevation ≤ 85 then
      58.1 / tanEl - 0.07 / tanEl ^ 3 + 8.6e-5 / tanEl ^ 5
    else r0
  let r2 := if -0.575 < elevation ∧ elevation ≤ 5 then
      elevation * (-518.2 + elevation * (103.4 + elevation * (-12.79 +
        elevation * 0.711))) + 1735
    else r1
  if -1 < elevation ∧ elevation ≤ -0.575 then -20.774 / tanEl else r2

/-- `ApparentSunEl = SunEl + Refract` from `ephemeris`, with
`Refract *= (283/(273. + temperature)) * (pressure/101325.) / 3600.` applied
to the masked series first. -/
noncomputable def ApparentSunEl (elevation temperature pressure : ℝ) : ℝ :=
  elevation + refract_masks elevation *
    ((283 / (273 + temperature)) * (pressure / 101325) / 3600)

/-- The refraction term exactly as the spec words it: a 3-branch piecewise
formula selected by elevation range, scaled by
`(283/(273+T)) * (P/101325) / 3600`. -/
noncomputable def refraction_spec (elevation temperature pressure : ℝ) : ℝ :=
  (if 5 < elevation ∧ elevation ≤ 85 then
      58.1 / Real.tan (elevation * (Real.pi / 180))
        - 0.07 / Real.tan (elevation * (Real.pi / 180)) ^ 3
        + 8.6e-5 / Real.tan (elevation * (Real.pi / 180)) ^ 5
   else if -0.575 < elevation ∧ elevation ≤ 5 then
      elevation * (-518.2 + elevation * (103.4 + elevation * (-12.79 +
        elevation * 0.711))) + 1735
   else if -1 < elevation ∧ elevation ≤ -0.575 then
      -20.774 / Real.tan (elevation * (Real.pi / 180))
   else 0)
  * ((283 / (273 + temperature)) * (pressure / 101325) / 3600)

theorem refract_masks_eq (el : ℝ) :
    refract_masks el =
      (if 5 < el ∧ el ≤ 85 then
          58.1 / Real.tan (el * (Real.pi / 180))
            - 0.07 / Real.tan (el * (Real.pi / 180)) ^ 3
            + 8.6e-5 / Real.tan (el * (Real.pi / 180)) ^ 5
       else if -0.575 < el ∧ el ≤ 5 then
          el * (-518.2 + el * (103.4 + el * (-12.79 + el * 0.711))) + 1735
       else if -1 < el ∧ el ≤ -0.575 then
          -20.774 / Real.tan (el * (Real.pi / 180))
       else 0) := by
  simp only [refract_masks]
  by_cases h3 : -1 < el ∧ el ≤ -0.575
  · have hn1 : ¬ (5 < el ∧ el ≤ 85) := by
      rintro ⟨a, -⟩
      linarith [h3.2]
    have hn2 : ¬ (-0.575 < el ∧ el ≤ 5) := by
      rintro ⟨a, -⟩
      linarith [h3.2]
    rw [if_pos h3, if_neg hn1, if_neg hn2, if_pos h3]
  · by_cases h2 : -0.575 < el ∧ el ≤ 5
    · have hn1 : ¬ (5 < el ∧ el ≤ 85) := by
        rintro ⟨a, -⟩
        linarith [h2.2]
      rw [if_neg h3, if_pos h2, if_neg hn1, if_pos h2]
    · rw [if_neg h3, if_neg h2, if_neg h2, if_neg h3]

/-- Claim C6: the refraction correction added to geometric elevation is the
3-branch piecewise formula of the spec, scaled by
`(283/(273+temperature)) * (pressure/101325) / 3600`; in particular
pressure = 0 makes apparent elevation equal geometric elevation. -/
theorem refraction_piecewise_correct (elevation temperature pressure : ℝ) :
    ApparentSunEl elevation temperature pressure
        = elevation + refraction_spec elevation temperature pressure ∧
    ApparentSunEl elevation temperature 0 = elevation := by
  constructor
  · simp only [ApparentSunEl, refraction_spec]
    rw [refract_masks_eq]
  · simp only [ApparentSunEl]
    norm_num

/-- `astype(np.int64)` on a float: truncation toward zero. -/
noncomputable def truncToInt (x : ℝ) : ℤ := if 0 ≤ x then ⌊x⌋ else ⌈x⌉

/-- `_local_times_from_hours_since_midnight(times, hours)` from the source:
anchor at the naive local midnight of `times` and add `hours * NS_PER_HR`
cast to int64; the result is the wall-clock nanosecond value of the returned
localized timestamp. -/
noncomputable def local_times_from_hours_since_midnight
    (times : Timestamp) (hours : ℝ) : ℤ :=
  midnightWallNs times + truncToInt (hours * NS_PER_HR)

/-- `sun_rise_set_transit_geometric(times, latitude, longitude, declination,
equation_of_time)` from the source, returning (sunrise, sunset, transit)
wall-clock nanosecond values, with NaN/NaT modelled as `none`. -/
noncomputable def sun_rise_set_transit_geometric (times : Timestamp)
    (latitude longitude declination equation_of_time : ℝ) :
    Option ℤ × Option ℤ × Option ℤ :=
  let latitude_rad := latitude * (Real.pi / 180)
  let sunset_angle_rad := arccosNaN (-Real.tan declination * Real.tan latitude_rad)
  let sunset_angle := Option.map (fun x => x * (180 / Real.pi)) sunset_angle_rad
  let sunrise_angle := Option.map (fun x => -x) sunset_angle
  let sunrise_hour := Option.map
    (fun a => hour_angle_to_hours times a longitude equation_of_time) sunrise_angle
  let sunset_hour := Option.map
    (fun a => hour_angle_to_hours times a longitude equation_of_time) sunset_angle
  let transit_hour := hour_angle_to_hours times 0 longitude equation_of_time
  (Option.map (local_times_from_hours_since_midnight times) sunrise_hour,
   Option.map (local_times_from_hours_since_midnight times) sunset_hour,
   some (local_times_from_hours_since_midnight times transit_hour))

/-- Claim C7: when `-tan(declination) * tan(latitude)` falls outside [-1, 1]
(polar day or night) the sunset hour angle is NaN and propagates through the
hour-angle-to-hours conversion into the returned sunrise and sunset timestamps
as missing values, while the transit output is still produced and no exception
is raised (the function is total). -/
theorem sun_rise_set_transit_geometric_polar (times : Timestamp)
    (latitude longitude declination equation_of_time : ℝ)
    (h : 1 < |-Real.tan declination * Real.tan (latitude * (Real.pi / 180))|) :
    (sun_rise_set_transit_geometric times latitude longitude declination
        equation_of_time).1 = none ∧
    (sun_rise_set_transit_geometric times latitude longitude declination
        equation_of_time).2.1 = none ∧
    (sun_rise_set_transit_geometric times latitude longitude declination
        equation_of_time).2.2.isSome := by
  have hdom : ¬ (-1 ≤ -Real.tan declination * Real.tan (latitude * (Real.pi / 180)) ∧
      -Real.tan declination * Real.tan (latitude * (Real.pi / 180)) ≤ 1) := by
    rcases lt_abs.mp h with h1 | h1
    · rintro ⟨-, hb⟩
      linarith
    · rintro ⟨ha, -⟩
      linarith
  simp only [sun_rise_set_transit_geometric, arccosNaN, if_neg hdom]
  exact ⟨rfl, rfl, rfl⟩

/-- Witness for `sun_rise_set_transit_geometric_polar`: latitude 60 degrees
with declination -pi/4 radians gives `-tan(declination) * tan(latitude_rad)
= sqrt 3 > 1` (polar day). -/
theorem sun_rise_set_transit_geometric_polar_witness :
    1 < |-Real.tan (-(Real.pi / 4)) * Real.tan ((60 : ℝ) * (Real.pi / 180))| ∧
    ((sun_rise_set_transit_geometric ⟨0, 0⟩ 60 0 (-(Real.pi / 4)) 0).1 = none ∧
     (sun_rise_set_transit_geometric ⟨0, 0⟩ 60 0 (-(Real.pi / 4)) 0).2.1 = none ∧
     (sun_rise_set_transit_geometric ⟨0, 0⟩ 60 0 (-(Real.pi / 4)) 0).2.2.isSome) := by
  have h60 : (60 : ℝ) * (Real.pi / 180) = Real.pi / 3 := by ring
  have htan3 : Real.tan (Real.pi / 3) = Real.sqrt 3 := by
    rw [Real.tan_eq_sin_div_cos, Real.sin_pi_div_three, Real.cos_pi_div_three]
    ring
  have htan4 : Real.tan (-(Real.pi / 4)) = -1 := by
    rw [Real.tan_neg, Real.tan_pi_div_four]
  have hsqrt : (1 : ℝ) < Real.sqrt 3 := by
    have h13 := Real.sqrt_lt_sqrt (by norm_num : (0:ℝ) ≤ 1) (by norm_num : (1:ℝ) < 3)
    rwa [Real.sqrt_one] at h13
  have h : 1 < |-Real.tan (-(Real.pi / 4)) * Real.tan ((60 : ℝ) * (Real.pi / 180))| := by
    rw [h60, htan3, htan4, neg_neg, one_mul, abs_of_pos (by linarith)]
    exact hsqrt
  exact ⟨h, sun_rise_set_transit_geometric_polar ⟨0, 0⟩ 60 0 (-(Real.pi / 4)) 0 h⟩

/-- One elementwise update of the Kepler fixed-point iteration in `ephemeris`:
`EccenAnom = MeanAnom + np.degrees(Eccen) * np.sin(np.radians(E))`. -/
noncomputable def keplerStep (meanAnom : List ℝ) (eccen : ℝ) (e : List ℝ) : List ℝ :=
  List.zipWith
    (fun m x => m + eccen * (180 / Real.pi) * Real.sin (x * (Real.pi / 180)))
    meanAnom e

/-- `np.max(abs(a - b))` over aligned arrays (0 for the empty array). -/
noncomputable def maxAbsDiff (a b : List ℝ) : ℝ :=
  (List.zipWith (fun x y => |x - y|) a b).foldr max 0

/-- The `while np.max(abs(EccenAnom - E)) > 0.0001` loop of the Kepler solver,
with explicit fuel bounding the number of loop-body executions; `none` means
the loop did not converge within `fuel` iterations. -/
noncomputable def keplerIter (meanAnom : List ℝ) (eccen : ℝ) :
    ℕ → List ℝ → List ℝ → Option (List ℝ)
  | 0, eccAnom, e =>
      if maxAbsDiff eccAnom e > 0.0001 then none else some eccAnom
  | n + 1, eccAnom, e =>
      if maxAbsDiff eccAnom e > 0.0001 then
        keplerIter meanAnom eccen n (keplerStep meanAnom eccen eccAnom) eccAnom
      else some eccAnom

/-- The full Kepler solver from `ephemeris`: `EccenAnom = MeanAnom; E = 0`,
then the while loop (broadcasting the scalar 0 over the array). -/
noncomputable def keplerSolve (meanAnom : List ℝ) (eccen : ℝ) (fuel : ℕ) :
    Option (List ℝ) :=
  keplerIter meanAnom eccen fuel meanAnom (List.map (fun _ => (0 : ℝ)) meanAnom)

theorem foldr_max_nonneg (l : List ℝ) : 0 ≤ l.foldr max 0 := by
  induction l with
  | nil => exact le_refl 0
  | cons x xs ih => exact le_trans ih (le_max_right x (xs.foldr max 0))

theorem maxAbsDiff_nonneg (a b : List ℝ) : 0 ≤ maxAbsDiff a b :=
  foldr_max_nonneg _

theorem maxAbsDiff_self (a : List ℝ) : maxAbsDiff a a = 0 := by
  unfold maxAbsDiff
  induction a with
  | nil => rfl
  | cons x xs ih =>
    simp only [List.zipWith_cons_cons, List.foldr_cons, sub_self, abs_zero]
    rw [ih, max_self]

theorem keplerStep_zero_self (meanAnom : List ℝ) :
    keplerStep meanAnom 0 meanAnom = meanAnom := by
  unfold keplerStep
  induction meanAnom with
  | nil => rfl
  | cons m ms ih =>
    simp only [List.zipWith_cons_cons, zero_mul, mul_zero, add_zero] at ih ⊢
    rw [ih]

/-- Lipschitz bound for one element of the Kepler update: the update moves two
iterates at most `eccen` times closer (degrees in, degrees out). -/
theorem kepler_term_lipschitz (eccen m x y : ℝ) (h0 : 0 ≤ eccen) :
    |(m + eccen * (180 / Real.pi) * Real.sin (x * (Real.pi / 180)))
        - (m + eccen * (180 / Real.pi) * Real.sin (y * (Real.pi / 180)))|
      ≤ eccen * |x - y| := by
  have hπ : (0 : ℝ) < Real.pi := Real.pi_pos
  have hsin : |Real.sin (x * (Real.pi / 180)) - Real.sin (y * (Real.pi / 180))|
      ≤ |x * (Real.pi / 180) - y * (Real.pi / 180)| := by
    rw [Real.sin_sub_sin]
    have h1 : |2 * Real.sin ((x * (Real.pi / 180) - y * (Real.pi / 180)) / 2) *
        Real.cos ((x * (Real.pi / 180) + y * (Real.pi / 180)) / 2)|
        = 2 * (|Real.sin ((x * (Real.pi / 180) - y * (Real.pi / 180)) / 2)| *
          |Real.cos ((x * (Real.pi / 180) + y * (Real.pi / 180)) / 2)|) := by
      rw [abs_mul, abs_mul, abs_two, mul_assoc]
    rw [h1]
    have h2 : |Real.sin ((x * (Real.pi / 180) - y * (Real.pi / 180)) / 2)|
        ≤ |(x * (Real.pi / 180) - y * (Real.pi / 180)) / 2| := Real.abs_sin_le_abs
    have h3 : |Real.cos ((x * (Real.pi / 180) + y * (Real.pi / 180)) / 2)| ≤ 1 :=
      Real.abs_cos_le_one _
    have h4 : |(x * (Real.pi / 180) - y * (Real.pi / 180)) / 2|
        = |x * (Real.pi / 180) - y * (Real.pi / 180)| / 2 := by
      rw [abs_div, abs_two]
    have h5 : 0 ≤ |Real.sin ((x * (Real.pi / 180) - y * (Real.pi / 180)) / 2)| :=
      abs_nonneg _
    have h6 : 0 ≤ |Real.cos ((x * (Real.pi / 180) + y * (Real.pi / 180)) / 2)| :=
      abs_nonneg _
    nlinarith [h2, h3, h4, h5, h6]
  have hdiff : (m + eccen * (180 / Real.pi) * Real.sin (x * (Real.pi / 180)))
      - (m + eccen * (180 / Real.pi) * Real.sin (y * (Real.pi / 180)))
      = eccen * (180 / Real.pi) *
        (Real.sin (x * (Real.pi / 180)) - Real.sin (y * (Real.pi / 180))) := by
    ring
  rw [hdiff, abs_mul,
    abs_of_nonneg (by positivity : (0 : ℝ) ≤ eccen * (180 / Real.pi))]
  have harg : |x * (Real.pi / 180) - y * (Real.pi / 180)|
      = |x - y| * (Real.pi / 180) := by
    have hfac : x * (Real.pi / 180) - y * (Real.pi / 180)
        = (x - y) * (Real.pi / 180) := by ring
    rw [hfac, abs_mul, abs_of_pos (by positivity : (0 : ℝ) < Real.pi / 180)]
  have hstep : eccen * (180 / Real.pi) *
      |Real.sin (x * (Real.pi / 180)) - Real.sin (y * (Real.pi / 180))|
      ≤ eccen * (180 / Real.pi) * (|x - y| * (Real.pi / 180)) := by
    have := hsin
    rw [harg] at this
    exact mul_le_mul_of_nonneg_left this (by positivity)
  have hfinal : eccen * (180 / Real.pi) * (|x - y| * (Real.pi / 180))
      = eccen * |x - y| := by
    field_simp
    ring
  calc eccen * (180 / Real.pi) *
      |Real.sin (x * (Real.pi / 180)) - Real.sin (y * (Real.pi / 180))|
      ≤ eccen * (180 / Real.pi) * (|x - y| * (Real.pi / 180)) := hstep
    _ = eccen * |x - y| := hfinal

/-- The array-wide Kepler update is a contraction with factor `eccen`. -/
theorem keplerStep_contraction (eccen : ℝ) (h0 : 0 ≤ eccen) :
    ∀ (meanAnom e f : List ℝ),
      maxAbsDiff (keplerStep meanAnom eccen e) (keplerStep meanAnom eccen f)
        ≤ eccen * maxAbsDiff e f := by
  intro meanAnom
  induction meanAnom with
  | nil =>
    intro e f
    have hz : maxAbsDiff (keplerStep [] eccen e) (keplerStep [] eccen f) = 0 := by
      unfold keplerStep maxAbsDiff
      simp
    rw [hz]
    exact mul_nonneg h0 (maxAbsDiff_nonneg e f)
  | cons m ms ih =>
    intro e f
    cases e with
    | nil =>
      have hz : maxAbsDiff (keplerStep (m :: ms) eccen [])
          (keplerStep (m :: ms) eccen f) = 0 := by
        unfold keplerStep maxAbsDiff
        simp
      rw [hz]
      exact mul_nonneg h0 (maxAbsDiff_nonneg [] f)
    | cons x xs =>
      cases f with
      | nil =>
        have hz : maxAbsDiff (keplerStep (m :: ms) eccen (x :: xs))
            (keplerStep (m :: ms) eccen []) = 0 := by
          unfold keplerStep maxAbsDiff
          simp
        rw [hz]
        exact mul_nonneg h0 (maxAbsDiff_nonneg (x :: xs) [])
      | cons y ys =>
        have hexp : maxAbsDiff (keplerStep (m :: ms) eccen (x :: xs))
            (keplerStep (m :: ms) eccen (y :: ys))
            = max |(m + eccen * (180 / Real.pi) * Real.sin (x * (Real.pi / 180)))
                - (m + eccen * (180 / Real.pi) * Real.sin (y * (Real.pi / 180)))|
              (maxAbsDiff (keplerStep ms eccen xs) (keplerStep ms eccen ys)) := by
          unfold keplerStep maxAbsDiff
          simp only [List.zipWith_cons_cons, List.foldr_cons]
        have hexp2 : maxAbsDiff (x :: xs) (y :: ys)
            = max |x - y| (maxAbsDiff xs ys) := by
          unfold maxAbsDiff
          simp only [List.zipWith_cons_cons, List.foldr_cons]
        rw [hexp, hexp2, mul_max_of_nonneg _ _ h0]
        exact max_le_max (kepler_term_lipschitz eccen m x y h0) (ih xs ys)

theorem keplerIter_zero (meanAnom : List ℝ) (eccen : ℝ) (eccAnom e : List ℝ) :
    keplerIter meanAnom eccen 0 eccAnom e
      = if maxAbsDiff eccAnom e > 0.0001 then none else some eccAnom := rfl

theorem keplerIter_succ (meanAnom : List ℝ) (eccen : ℝ) (n : ℕ)
    (eccAnom e : List ℝ) :
    keplerIter meanAnom eccen (n + 1) eccAnom e
      = if maxAbsDiff eccAnom e > 0.0001 then
          keplerIter meanAnom eccen n (keplerStep meanAnom eccen eccAnom) eccAnom
        else some eccAnom := rfl

/-- Convergence of the Kepler loop from any post-step state: if the current
change is at most `0.0001 * 50 ^ n`, then `n` units of fuel suffice. -/
theorem keplerIter_converges (meanAnom : List ℝ) (eccen : ℝ)
    (h0 : 0 ≤ eccen) (h1 : eccen ≤ 1 / 50) :
    ∀ (n : ℕ) (e : List ℝ),
      maxAbsDiff (keplerStep meanAnom eccen e) e ≤ 0.0001 * 50 ^ n →
      ∃ r, keplerIter meanAnom eccen n (keplerStep meanAnom eccen e) e = some r := by
  intro n
  induction n with
  | zero =>
    intro e hd
    refine ⟨keplerStep meanAnom eccen e, ?_⟩
    rw [keplerIter_zero, if_neg]
    rw [not_lt]
    calc maxAbsDiff (keplerStep meanAnom eccen e) e ≤ 0.0001 * 50 ^ 0 := hd
      _ = 0.0001 := by norm_num
  | succ n ih =>
    intro e hd
    by_cases hgo : maxAbsDiff (keplerStep meanAnom eccen e) e > 0.0001
    · have hcontr := keplerStep_contraction eccen h0 meanAnom
        (keplerStep meanAnom eccen e) e
      have hmul : eccen * maxAbsDiff (keplerStep meanAnom eccen e) e
          ≤ (1 / 50) * (0.0001 * 50 ^ (n + 1)) := by
        apply mul_le_mul h1 hd (maxAbsDiff_nonneg _ _)
        norm_num
      have hpow : ((1 : ℝ) / 50) * (0.0001 * 50 ^ (n + 1)) = 0.0001 * 50 ^ n := by
        rw [pow_succ]
        ring
      have hnext : maxAbsDiff (keplerStep meanAnom eccen (keplerStep meanAnom eccen e))
          (keplerStep meanAnom eccen e) ≤ 0.0001 * 50 ^ n := by
        linarith [hcontr, hmul]
      obtain ⟨r, hr⟩ := ih (keplerStep meanAnom eccen e) hnext
      refine ⟨r, ?_⟩
      rw [keplerIter_succ, if_pos hgo]
      exact hr
    · refine ⟨keplerStep meanAnom eccen e, ?_⟩
      rw [keplerIter_succ, if_neg hgo]

/-- The very first update never moves any element by more than
`eccen * 180 / pi <= 6/5` degrees. -/
theorem keplerStep_initial_bound (eccen : ℝ) (h0 : 0 ≤ eccen)
    (h1 : eccen ≤ 1 / 50) :
    ∀ meanAnom : List ℝ, maxAbsDiff (keplerStep meanAnom eccen meanAnom) meanAnom ≤ 6 / 5 := by
  have hπ : (3 : ℝ) < Real.pi := Real.pi_gt_three
  have hcoef : eccen * (180 / Real.pi) ≤ 6 / 5 := by
    have h180 : (180 : ℝ) / Real.pi ≤ 60 := by
      rw [div_le_iff₀ (by linarith : (0 : ℝ) < Real.pi)]
      linarith
    have e1 : eccen * (180 / Real.pi) ≤ (1 / 50) * (180 / Real.pi) :=
      mul_le_mul_of_nonneg_right h1 (by positivity)
    have e2 : ((1 : ℝ) / 50) * (180 / Real.pi) ≤ (1 / 50) * 60 :=
      mul_le_mul_of_nonneg_left h180 (by norm_num)
    linarith
  intro meanAnom
  induction meanAnom with
  | nil =>
    unfold maxAbsDiff keplerStep
    simp only [List.zipWith_nil_left, List.foldr_nil]
    norm_num
  | cons m ms ih =>
    have hexp : maxAbsDiff (keplerStep (m :: ms) eccen (m :: ms)) (m :: ms)
        = max |(m + eccen * (180 / Real.pi) * Real.sin (m * (Real.pi / 180))) - m|
          (maxAbsDiff (keplerStep ms eccen ms) ms) := by
      unfold keplerStep maxAbsDiff
      simp only [List.zipWith_cons_cons, List.foldr_cons]
    rw [hexp]
    apply max_le _ ih
    have helt : (m + eccen * (180 / Real.pi) * Real.sin (m * (Real.pi / 180))) - m
        = eccen * (180 / Real.pi) * Real.sin (m * (Real.pi / 180)) := by ring
    rw [helt, abs_mul,
      abs_of_nonneg (by positivity : (0 : ℝ) ≤ eccen * (180 / Real.pi))]
    calc eccen * (180 / Real.pi) * |Real.sin (m * (Real.pi / 180))|
        ≤ eccen * (180 / Real.pi) * 1 :=
          mul_le_mul_of_nonneg_left (Real.abs_sin_le_one _) (by positivity)
      _ = eccen * (180 / Real.pi) := mul_one _
      _ ≤ 6 / 5 := hcoef

/-- Claim C3: with eccentricity exactly zero the Kepler loop terminates within
one iteration and returns the mean anomaly exactly. -/
theorem kepler_zero_eccentricity (meanAnom : List ℝ) :
    keplerSolve meanAnom 0 1 = some meanAnom := by
  unfold keplerSolve
  by_cases hgo : maxAbsDiff meanAnom (List.map (fun _ => (0 : ℝ)) meanAnom) > 0.0001
  · rw [show (1 : ℕ) = 0 + 1 from rfl, keplerIter_succ, if_pos hgo,
      keplerStep_zero_self, keplerIter_zero, if_neg]
    rw [not_lt, maxAbsDiff_self]
    norm_num
  · rw [show (1 : ℕ) = 0 + 1 from rfl, keplerIter_succ, if_neg hgo]

/-- Claim C4: for every input array and every eccentricity `0 <= e < 0.02` the
Kepler fixed-point loop converges — fuel 9 (at most 9 loop iterations, fewer
than 10) always suffices to bring the maximum absolute change below 1e-4. -/
theorem kepler_bounded_iterations (meanAnom : List ℝ) (eccen : ℝ)
    (h0 : 0 ≤ eccen) (h1 : eccen < 0.02) :
    ∃ r, keplerSolve meanAnom eccen 9 = some r := by
  have h1le : eccen ≤ 1 / 50 := by
    rw [show (1 : ℝ) / 50 = 0.02 by norm_num]
    exact le_of_lt h1
  unfold keplerSolve
  by_cases hgo : maxAbsDiff meanAnom (List.map (fun _ => (0 : ℝ)) meanAnom) > 0.0001
  · have hinit : maxAbsDiff (keplerStep meanAnom eccen meanAnom) meanAnom
        ≤ 0.0001 * 50 ^ 8 := by
      calc maxAbsDiff (keplerStep meanAnom eccen meanAnom) meanAnom
          ≤ 6 / 5 := keplerStep_initial_bound eccen h0 h1le meanAnom
        _ ≤ 0.0001 * 50 ^ 8 := by norm_num
    obtain ⟨r, hr⟩ := keplerIter_converges meanAnom eccen h0 h1le 8 meanAnom hinit
    refine ⟨r, ?_⟩
    rw [show (9 : ℕ) = 8 + 1 from rfl, keplerIter_succ, if_pos hgo]
    exact hr
  · refine ⟨meanAnom, ?_⟩
    rw [show (9 : ℕ) = 8 + 1 from rfl, keplerIter_succ, if_neg hgo]

/-- Witness for `kepler_bounded_iterations` with Earth's eccentricity 0.0167
and a one-element mean-anomaly array. -/
theorem kepler_bounded_iterations_witness :
    (0 : ℝ) ≤ 0.0167 ∧ (0.0167 : ℝ) < 0.02 ∧
    ∃ r, keplerSolve [358.47583] 0.0167 9 = some r :=
  ⟨by norm_num, by norm_num,
   kepler_bounded_iterations [358.47583] 0.0167 (by norm_num) (by norm_num)⟩
